import Mathlib

/-!
Shallow embedding of the core of the `guppy` repository:

* `src/guppy/src/graph/summaries.rs` — build summaries: package-source
  classification (`PackageSource::to_summary_source`), the role classifier
  (`FeatureSet::to_package_map`), and the options summary
  (`CargoOptionsSummary::new` / `to_cargo_options`).
* `src/tools/cargo-hakari/src/command.rs` — the workspace-operation
  orchestrator (`apply_on_dialog`), the content reconciler
  (`write_to_cargo_toml`), the `manage-deps` subcommand flow, and the
  publish workflow (`CommandWithBuilder::exec`, `Publish` arm).

External collaborators (the live package graph, the platform-spec
serializer, the on-disk manifest writer, subprocess invocations, the
interactive prompt) are modelled at their interfaces: as explicit function
parameters or `Except`-valued parameters, exactly where the Rust code calls
into them.  Rust panics (`expect` / `unimplemented!`) are modelled as a
distinct `panic` outcome, separate from returned `Result::Err` values.
-/

namespace Guppy

/-! ### Outcome type: Rust `Result` plus panics

Rust code in scope can finish three ways: return `Ok`, return `Err`
(modelled with a `String` message, as `eyre`/`guppy::Error` messages), or
panic (`expect`, `unimplemented!`).  `PanicOr α` captures all three. -/

inductive PanicOr (α : Type) where
  | panic (msg : String)
  | error (msg : String)
  | ok (a : α)
deriving DecidableEq, Repr

def PanicOr.isOk {α : Type} : PanicOr α → Bool
  | .ok _ => true
  | _ => false

def PanicOr.isPanic {α : Type} : PanicOr α → Bool
  | .panic _ => true
  | _ => false

def PanicOr.isError {α : Type} : PanicOr α → Bool
  | .error _ => true
  | _ => false

/-- Monadic bind for `PanicOr` (models `?` on `Result` while letting panics
through unchanged). -/
def PanicOr.bind {α β : Type} : PanicOr α → (α → PanicOr β) → PanicOr β
  | .panic m, _ => .panic m
  | .error m, _ => .error m
  | .ok a, f => f a

/-! ### Identity & Source model (`summaries.rs`) -/

/-- The well-known public registry origin string
(`PackageSource::CRATES_IO_REGISTRY` in guppy). -/
def CRATES_IO_REGISTRY : String :=
  "registry+https://github.com/rust-lang/crates.io-index"

/-- `guppy_summaries::SummarySource`: where a summarized package's source
lives. -/
inductive SummarySource where
  | workspace (workspace_path : String)
  | path (p : String)
  | cratesIo
  | external (url : String)
deriving DecidableEq, Repr

def SummarySource.isWorkspace : SummarySource → Bool
  | .workspace _ => true
  | _ => false

/-- `guppy::graph::PackageSource`: a live package's origin.  `external`
carries the raw origin string. -/
inductive PackageSource where
  | workspace (path : String)
  | path (p : String)
  | external (source : String)
deriving DecidableEq, Repr

/-- `PackageSource::to_summary_source` (summaries.rs:249-261): workspace and
path map directly; an external source equal to `CRATES_IO_REGISTRY` becomes
the crates-io marker, any other external source is preserved verbatim. -/
def PackageSource.to_summary_source : PackageSource → SummarySource
  | .workspace wp => .workspace wp
  | .path lp => .path lp
  | .external src =>
      if src = CRATES_IO_REGISTRY then .cratesIo
      else .external src

/-- `guppy_summaries::SummaryId`: canonical identity of a summarized package
(name, version, source).  Versions are modelled as strings. -/
structure SummaryId where
  name : String
  version : String
  source : SummarySource
deriving DecidableEq, Repr

/-! ### Live package metadata, as far as the summary code consumes it -/

/-- A package id in the live graph: opaque, modelled as a string. -/
structure PackageId where
  repr : String
deriving DecidableEq, Repr

/-- The slice of `PackageMetadata` that `summaries.rs` reads: name, version,
source, graph index, workspace membership. -/
structure PackageMetadata where
  name : String
  version : String
  source : PackageSource
  package_ix : Nat
  in_workspace : Bool
deriving DecidableEq, Repr

/-- `PackageMetadata::to_summary_id` (summaries.rs:85-91). -/
def PackageMetadata.to_summary_id (m : PackageMetadata) : SummaryId :=
  ⟨m.name, m.version, m.source.to_summary_source⟩

/-! ### Role classifier (`FeatureSet::to_package_map`, summaries.rs:47-78) -/

/-- `guppy_summaries::PackageStatus`: the role of a package in a build
summary. -/
inductive PackageStatus where
  | initial
  | workspace
  | direct
  | transitive
deriving DecidableEq, Repr

/-- `guppy_summaries::PackageInfo`: status plus enabled feature names. -/
structure PackageInfo where
  status : PackageStatus
  features : List String
deriving DecidableEq, Repr

/-- One element of `packages_with_features`: a package together with the
feature names enabled for it. -/
structure FeatureList where
  package : PackageMetadata
  features : List String
deriving DecidableEq, Repr

/-- A `FeatureSet` as the summary code consumes it: its packages with
features, already in forward iteration order. -/
structure FeatureSet where
  packages_with_features : List FeatureList
deriving DecidableEq, Repr

/-- Whether `initials` (a feature set) contains a package graph index
(`FeatureSet::contains_package_ix`). -/
def FeatureSet.contains_package_ix (s : FeatureSet) (ix : Nat) : Bool :=
  s.packages_with_features.any fun fl => fl.package.package_ix = ix

/-- A `PackageSet` as consumed here: the set of graph indices it contains
(`PackageSet::contains_ix`). -/
structure PackageSet where
  ixs : List Nat
deriving DecidableEq, Repr

def PackageSet.contains_ix (s : PackageSet) (ix : Nat) : Bool :=
  s.ixs.contains ix

/-- `FeatureSet::to_package_map` (summaries.rs:47-78): for each package in
the selection, classify its status by the first-match chain
initials → workspace → direct deps → transitive, and pair its summary id
with the status and feature list. -/
def FeatureSet.to_package_map (s : FeatureSet) (initials : FeatureSet)
    (direct_deps : PackageSet) : List (SummaryId × PackageInfo) :=
  s.packages_with_features.map fun feature_list =>
    let package := feature_list.package
    let status :=
      if initials.contains_package_ix package.package_ix then
        PackageStatus.initial
      else if package.in_workspace then
        PackageStatus.workspace
      else if direct_deps.contains_ix package.package_ix then
        PackageStatus.direct
      else
        PackageStatus.transitive
    (package.to_summary_id, ⟨status, feature_list.features⟩)

/-! ### Live graph and platform interfaces -/

/-- The live package graph, at the interface `summaries.rs` consumes:
`graph.metadata(id)` (None models `Err`), and
`graph.workspace().member_by_path(path)`. -/
structure PackageGraph where
  metadata : PackageId → Option PackageMetadata
  member_by_path : String → Except String PackageId

/-- A live platform spec (`target_spec::Platform`), opaque here. -/
structure Platform where
  spec : String
deriving DecidableEq, Repr

/-- A serialized platform spec (`target_spec::summaries::PlatformSummary`),
opaque here. -/
structure PlatformSummary where
  spec : String
deriving DecidableEq, Repr

/-- The external platform-spec serializer at its interface:
`PlatformSummary::new` (serialize) and `PlatformSummary::to_platform`
(parse), both fallible. -/
structure PlatformCodec where
  ser : Platform → Except String PlatformSummary
  de : PlatformSummary → Except String Platform

/-- `Option::map` followed by `transpose`, as used on the platform fields. -/
def transposeOpt {α : Type} : Option (Except String α) → Except String (Option α)
  | none => .ok none
  | some (.error e) => .error e
  | some (.ok a) => .ok (some a)

/-! ### Orderings for the BTreeSet / sort model -/

/-- Lexicographic comparison of lists, elementwise. -/
def cmpList {α : Type} (c : α → α → Ordering) : List α → List α → Ordering
  | [], [] => .eq
  | [], _ :: _ => .lt
  | _ :: _, [] => .gt
  | x :: xs, y :: ys => (c x y).then (cmpList c xs ys)

/-- Variant rank and payload used to order `SummarySource` values the way
the derived Rust `Ord` does (variant order, then fields). -/
def SummarySource.ordKey : SummarySource → Nat × String
  | .workspace wp => (0, wp)
  | .path lp => (1, lp)
  | .cratesIo => (2, "")
  | .external url => (3, url)

def SummarySource.cmp (a b : SummarySource) : Ordering :=
  (compare a.ordKey.1 b.ordKey.1).then (compare a.ordKey.2 b.ordKey.2)

/-- Derived lexicographic ordering on `SummaryId` (name, version, source). -/
def SummaryId.cmp (a b : SummaryId) : Ordering :=
  (compare a.name b.name).then
    ((compare a.version b.version).then (SummarySource.cmp a.source b.source))

def SummaryId.leB (a b : SummaryId) : Bool :=
  !(SummaryId.cmp a b == Ordering.gt)

def String.leB (a b : String) : Bool :=
  !(compare a b == Ordering.gt)

/-- Insert into a sorted list without deduplication (model of
`Vec::sort_unstable` via insertion sort). -/
def insertSorted {α : Type} (le : α → α → Bool) (x : α) : List α → List α
  | [] => [x]
  | y :: ys => if le x y then x :: y :: ys else y :: insertSorted le x ys

def insertionSort {α : Type} (le : α → α → Bool) (l : List α) : List α :=
  l.foldr (insertSorted le) []

/-- Insert into a sorted duplicate-free list, dropping duplicates (model of
`BTreeSet::insert`). -/
def insertBTree {α : Type} [DecidableEq α] (le : α → α → Bool) (x : α) :
    List α → List α
  | [] => [x]
  | y :: ys =>
      if x = y then y :: ys
      else if le x y then x :: y :: ys
      else y :: insertBTree le x ys

/-- Collect a list into a `BTreeSet`, modelled as a sorted duplicate-free
list built by repeated insertion. -/
def btreeOfList {α : Type} [DecidableEq α] (le : α → α → Bool)
    (l : List α) : List α :=
  l.foldl (fun acc x => insertBTree le x acc) []

/-! ### Cargo options and their summary -/

/-- `guppy::graph::cargo::CargoResolverVersion`. -/
inductive CargoResolverVersion where
  | v1
  | v2
deriving DecidableEq, Repr

/-- The slice of `CargoOptions` that `summaries.rs` reads and rebuilds:
resolver version, dev-dependency inclusion, proc-macro handling, optional
host/target platforms, omitted packages.  (The features-only set is not a
`CargoOptions` field; it is a separate `FeatureSet` argument.) -/
structure CargoOptions where
  version : CargoResolverVersion
  include_dev : Bool
  proc_macros_on_target : Bool
  host_platform : Option Platform
  target_platform : Option Platform
  omitted_packages : List PackageId
deriving DecidableEq, Repr

/-- `guppy::graph::summaries::FeaturesOnlySummary`. -/
structure FeaturesOnlySummary where
  summary_id : SummaryId
  features : List String
deriving DecidableEq, Repr

/-- Ordering on `FeaturesOnlySummary` as derived in Rust: summary id first,
then the feature set (compared lexicographically over sorted elements). -/
def FeaturesOnlySummary.cmp (a b : FeaturesOnlySummary) : Ordering :=
  (SummaryId.cmp a.summary_id b.summary_id).then
    (cmpList compare a.features b.features)

def FeaturesOnlySummary.leB (a b : FeaturesOnlySummary) : Bool :=
  !(FeaturesOnlySummary.cmp a b == Ordering.gt)

/-- `guppy::graph::summaries::CargoOptionsSummary` (summaries.rs:100-125).
The `BTreeSet` of omitted packages is modelled as a sorted duplicate-free
list. -/
structure CargoOptionsSummary where
  version : CargoResolverVersion
  include_dev : Bool
  proc_macros_on_target : Bool
  host_platform : Option PlatformSummary
  target_platform : Option PlatformSummary
  omitted_packages : List SummaryId
  features_only : List FeaturesOnlySummary
deriving DecidableEq, Repr

/-- The omitted-packages resolution loop of `CargoOptionsSummary::new`
(summaries.rs:134-141): look each package id up in the graph —
`.expect("valid package ID")` panics on a missing id — and convert the
metadata to a summary id. -/
def collectSummaryIds (graph : PackageGraph) :
    List PackageId → PanicOr (List SummaryId)
  | [] => .ok []
  | pid :: rest =>
      match graph.metadata pid with
      | none => .panic "valid package ID"
      | some m =>
          (collectSummaryIds graph rest).bind fun tl => .ok (m.to_summary_id :: tl)

/-- The features-only collection of `CargoOptionsSummary::new`
(summaries.rs:143-153): one `FeaturesOnlySummary` per package, features
collected into a `BTreeSet`. -/
def FeatureSet.to_features_only_vec (fs : FeatureSet) : List FeaturesOnlySummary :=
  fs.packages_with_features.map fun features =>
    ⟨features.package.to_summary_id, btreeOfList String.leB features.features⟩

/-- `CargoOptionsSummary::new` (summaries.rs:129-177): resolve omitted
package ids (panicking on a missing id), collect and sort the features-only
set, serialize the platforms (tagged error on failure), and assemble the
summary. -/
def CargoOptionsSummary.new (graph : PackageGraph) (codec : PlatformCodec)
    (features_only : FeatureSet) (opts : CargoOptions) :
    PanicOr CargoOptionsSummary :=
  (collectSummaryIds graph opts.omitted_packages).bind fun ids =>
  let omitted_summary_ids := btreeOfList SummaryId.leB ids
  let fo := insertionSort FeaturesOnlySummary.leB features_only.to_features_only_vec
  match transposeOpt (opts.host_platform.map codec.ser) with
  | .error e => .error ("while serializing host platform: " ++ e)
  | .ok host_platform =>
  match transposeOpt (opts.target_platform.map codec.ser) with
  | .error e => .error ("while serializing target platform: " ++ e)
  | .ok target_platform =>
      .ok ⟨opts.version, opts.include_dev, opts.proc_macros_on_target,
        host_platform, target_platform, omitted_summary_ids, fo⟩

/-- Rust `Debug`-style variant tag used in the `unimplemented!` message. -/
def SummarySource.variantName : SummarySource → String
  | .workspace _ => "Workspace"
  | .path _ => "Path"
  | .cratesIo => "CratesIo"
  | .external _ => "External"

/-- The omitted-packages reverse-conversion loop of
`CargoOptionsSummary::to_cargo_options` (summaries.rs:184-197): a
`Workspace` source is looked up by path (lookup failure becomes a returned
error via `collect::<Result<_, _>>`), any other source hits
`unimplemented!` — a panic naming the variant. -/
def convertOmitted (graph : PackageGraph) :
    List SummaryId → PanicOr (List PackageId)
  | [] => .ok []
  | sid :: rest =>
      match sid.source with
      | .workspace workspace_path =>
          match graph.member_by_path workspace_path with
          | .error e => .error e
          | .ok pid =>
              (convertOmitted graph rest).bind fun tl => .ok (pid :: tl)
      | other =>
          .panic ("conversion from non-workspace sources (" ++
            other.variantName ++ ") is currently unsupported")

/-- `CargoOptionsSummary::to_cargo_options` (summaries.rs:180-226): reverse
the omitted-packages conversion, parse the platforms back (tagged error on
failure), and rebuild the options.  The features-only set is not
reconstructed (source TODO at summaries.rs:199). -/
def CargoOptionsSummary.to_cargo_options (s : CargoOptionsSummary)
    (graph : PackageGraph) (codec : PlatformCodec) : PanicOr CargoOptions :=
  (convertOmitted graph s.omitted_packages).bind fun omitted_packages =>
  match transposeOpt (s.host_platform.map codec.de) with
  | .error e => .error ("parsing host platform: " ++ e)
  | .ok host =>
  match transposeOpt (s.target_platform.map codec.de) with
  | .error e => .error ("parsing target platform: " ++ e)
  | .ok target =>
      .ok ⟨s.version, s.include_dev, s.proc_macros_on_target,
        host, target, omitted_packages⟩

/-! ### cargo-hakari command flows (`command.rs`)

On-disk mutations and subprocess invocations are recorded in an effect
trace; each external fallible call (prompt, manifest apply, file write,
subprocess) is a parameter carrying its outcome. -/

/-- A workspace-mutation operation (spec §3 `WorkspaceOperation`; the
orchestrator treats the list as opaque apart from emptiness). -/
inductive WorkspaceOp where
  | addDep (from_pkg to_pkg : String)
  | removeDep (from_pkg to_pkg : String)
deriving DecidableEq, Repr

/-- Observable side effects of the command flows. -/
inductive Effect where
  | applyOps
  | writeFile
  | regenLock
  | publish
deriving DecidableEq, Repr

/-- `regenerate_lockfile` (command.rs:553-563): run `cargo tree` with stdout
discarded; a failure is wrapped as "updating Cargo.lock failed". -/
def regenerate_lockfile (cargoTreeResult : Except String Unit) :
    Except String Unit × List Effect :=
  match cargoTreeResult with
  | .error e => (.error ("updating Cargo.lock failed: " ++ e), [Effect.regenLock])
  | .ok _ => (.ok (), [Effect.regenLock])

/-- `apply_on_dialog` (command.rs:508-550): print the operations; under
dry-run return exit status 1 immediately; otherwise resolve confirmation
(`--yes` or the interactive prompt, whose read failure is wrapped as
"error reading input"); on approval apply the operations and then run the
`after` callback (given as its outcome and effect trace); on decline return
exit status 1. -/
def apply_on_dialog (dry_run yes : Bool) (ops : List WorkspaceOp)
    (interact : Except String Bool)
    (applyResult : Except String Unit)
    (after : Except String Unit × List Effect) :
    PanicOr Int × List Effect :=
  if dry_run then
    -- dry-run + non-empty ops implies exit status 1 (the caller rules out
    -- the empty case before calling).
    (.ok 1, [])
  else
    let should_apply : Except String Bool :=
      if yes then .ok true
      else
        match interact with
        | .error e => .error ("error reading input: " ++ e)
        | .ok b => .ok b
    match should_apply with
    | .error e => (.error e, [])
    | .ok true =>
        match applyResult with
        | .error e => (.error e, [Effect.applyOps])
        | .ok _ =>
            match after.1 with
            | .error e => (.error e, Effect.applyOps :: after.2)
            | .ok _ => (.ok 0, Effect.applyOps :: after.2)
    | .ok false => (.ok 1, [])

/-- The `ManageDeps` arm of `CommandWithBuilder::exec`
(command.rs:297-311): compute the operation set (`manage_dep_ops` returns
`None` only without a hakari package — an `expect` panic); when it is empty
report "no operations to perform" and exit 0; otherwise hand it to
`apply_on_dialog` with lockfile regeneration as the `after` callback. -/
def manageDepsExec (ops_opt : Option (List WorkspaceOp)) (dry_run yes : Bool)
    (interact : Except String Bool)
    (applyResult : Except String Unit)
    (cargoTreeResult : Except String Unit) :
    PanicOr Int × List Effect :=
  match ops_opt with
  | none => (.panic "hakari-package must be specified in hakari.toml", [])
  | some ops =>
      if ops.isEmpty then (.ok 0, [])
      else
        apply_on_dialog dry_run yes ops interact applyResult
          (regenerate_lockfile cargoTreeResult)

/-- The workspace-hack `Cargo.toml` as `write_to_cargo_toml` consumes it:
the current generated contents (`HakariCargoToml`). -/
structure HakariCargoToml where
  contents : String
deriving DecidableEq, Repr

/-- `HakariCargoToml::is_changed`: the generated contents differ from the
proposed new contents. -/
def HakariCargoToml.is_changed (t : HakariCargoToml) (new_contents : String) : Bool :=
  t.contents != new_contents

/-- `write_to_cargo_toml` (command.rs:475-506).  `diffHunks` is the external
diff library at its interface: the number of hunks of the computed patch.
In diff mode nothing is written and the exit status is 1 exactly when the
patch has hunks; otherwise unchanged contents mean no write and exit 0,
and changed contents are written, followed by mandatory lockfile
regeneration whose failure propagates. -/
def write_to_cargo_toml (diffHunks : String → String → Nat)
    (existing_toml : HakariCargoToml) (new_contents : String) (diff : Bool)
    (writeResult : Except String Unit)
    (cargoTreeResult : Except String Unit) :
    PanicOr Int × List Effect :=
  if diff then
    if diffHunks existing_toml.contents new_contents = 0 then (.ok 0, [])
    else (.ok 1, [])
  else
    if !(existing_toml.is_changed new_contents) then (.ok 0, [])
    else
      match writeResult with
      | .error e =>
          (.error ("error writing updated Hakari contents: " ++ e), [Effect.writeFile])
      | .ok _ =>
          let regen := regenerate_lockfile cargoTreeResult
          match regen.1 with
          | .error e => (.error e, Effect.writeFile :: regen.2)
          | .ok _ => (.ok 0, Effect.writeFile :: regen.2)

/-! ### Publish workflow (`CommandWithBuilder::exec`, `Publish` arm,
command.rs:327-408) -/

/-- Outcome of one publish-workflow run: the returned result, the final
dependency-edge state, and the effect trace. -/
structure PublishOutcome where
  result : PanicOr Int
  final_edge : Bool
  trace : List Effect
deriving DecidableEq, Repr

/-- Modelled from the spec: the edge semantics of hakari's
`remove_dep_ops` / `add_dep_ops` / `WorkspaceOps::apply`, whose code is not
under `src/` (spec §3 `WorkspaceOperation`, §4.4, §4.6 steps 1 and 5).
`remove_dep_ops` for a single package yields one remove operation when the
edge is present and none when it is absent; a forced `add_dep_ops` yields
one add operation unconditionally; applying them makes the edge absent
resp. present.  Applying is fallible; the edge is tracked as a single
boolean. -/
def removeOpsFor (edge_present : Bool) : List WorkspaceOp :=
  if edge_present then [WorkspaceOp.removeDep "package" "hakari"] else []

/-- Steps 4-6 of the publish workflow (command.rs:356-407): run the
external publish action, then branch on (publish result, `add_later`): when
the edge had been removed, re-apply the forced add and regenerate the
lockfile on both the success and the failure path, and only then report the
publish outcome; apply or regeneration failures replace it. -/
def publishFinish (add_later : Bool) (edge_now : Bool)
    (publishRun addApply cargoTreeResult : Except String Unit)
    (priorTrace : List Effect) : PublishOutcome :=
  let trace1 := priorTrace ++ [Effect.publish]
  match publishRun, add_later with
  | .ok _, true =>
      match addApply with
      | .error e => ⟨.error e, edge_now, trace1 ++ [Effect.applyOps]⟩
      | .ok _ =>
          let regen := regenerate_lockfile cargoTreeResult
          match regen.1 with
          | .error e => ⟨.error e, true, trace1 ++ Effect.applyOps :: regen.2⟩
          | .ok _ => ⟨.ok 0, true, trace1 ++ Effect.applyOps :: regen.2⟩
  | .ok _, false => ⟨.ok 0, edge_now, trace1⟩
  | .error e, true =>
      match addApply with
      | .error e2 => ⟨.error e2, edge_now, trace1 ++ [Effect.applyOps]⟩
      | .ok _ =>
          let regen := regenerate_lockfile cargoTreeResult
          match regen.1 with
          | .error e3 => ⟨.error e3, true, trace1 ++ Effect.applyOps :: regen.2⟩
          | .ok _ =>
              ⟨.error ("cargo publish failed: " ++ e), true,
                trace1 ++ Effect.applyOps :: regen.2⟩
  | .error e, false => ⟨.error ("cargo publish failed: " ++ e), edge_now, trace1⟩

/-- The `Publish` arm (command.rs:327-408): compute the remove operations
for the single target package; when empty record `add_later = false` and
mutate nothing, else apply the removal immediately (unconditional, no
confirmation) and record `add_later = true`; then run `publishFinish`. -/
def publishExec (edge_present : Bool)
    (removeApply publishRun addApply cargoTreeResult : Except String Unit) :
    PublishOutcome :=
  if (removeOpsFor edge_present).isEmpty then
    publishFinish false edge_present publishRun addApply cargoTreeResult []
  else
    match removeApply with
    | .error e =>
        ⟨.error ("error removing dependency: " ++ e), edge_present,
          [Effect.applyOps]⟩
    | .ok _ =>
        publishFinish true false publishRun addApply cargoTreeResult
          [Effect.applyOps]

/-! ### Concrete example values for witnesses and counterexamples -/

/-- Concrete workspace-owned package used in witnesses: graph index 7,
workspace member. -/
def egMeta : PackageMetadata :=
  ⟨"pkg-a", "1.0.0", .workspace "crates/pkg-a", 7, true⟩

def egFeatureList : FeatureList := ⟨egMeta, ["default"]⟩

def egSelection : FeatureSet := ⟨[egFeatureList]⟩

def egPkgId : PackageId := ⟨"pkg-a 1.0.0 (path+file:///ws/crates/pkg-a)"⟩

/-- A concrete one-package graph: `egPkgId` resolves to `egMeta`, and the
workspace member at `crates/pkg-a` is `egPkgId`. -/
def egGraph : PackageGraph :=
  ⟨fun pid => if pid = egPkgId then some egMeta else none,
    fun wp => if wp = "crates/pkg-a" then .ok egPkgId
      else .error "workspace member not found"⟩

/-- A concrete platform codec that stores the triple string verbatim. -/
def idCodec : PlatformCodec :=
  ⟨fun p => .ok ⟨p.spec⟩, fun ps => .ok ⟨ps.spec⟩⟩

/-- Concrete live options: one workspace-sourced omitted package. -/
def egOpts : CargoOptions :=
  ⟨.v2, true, false, some ⟨"x86_64-unknown-linux-gnu"⟩,
    some ⟨"aarch64-apple-darwin"⟩, [egPkgId]⟩

/-- The summary produced from `egOpts` over `egGraph` with `idCodec`. -/
def egSummary : CargoOptionsSummary :=
  ⟨.v2, true, false, some ⟨"x86_64-unknown-linux-gnu"⟩,
    some ⟨"aarch64-apple-darwin"⟩,
    [⟨"pkg-a", "1.0.0", .workspace "crates/pkg-a"⟩], []⟩

/-- A summary whose only omitted package has a crates-io (non-workspace)
source. -/
def c5Summary : CargoOptionsSummary :=
  ⟨.v2, true, false, none, none, [⟨"serde", "1.0.130", .cratesIo⟩], []⟩

/-- A summary with one resolvable workspace-sourced omitted package and one
crates-io-sourced omitted package. -/
def c5MixedSummary : CargoOptionsSummary :=
  ⟨.v2, true, false, none, none,
    [⟨"pkg-a", "1.0.0", .workspace "crates/pkg-a"⟩,
      ⟨"serde", "1.0.130", .cratesIo⟩], []⟩

/-! ## Helper lemmas -/

theorem mem_insertBTree {α : Type} [DecidableEq α] (le : α → α → Bool)
    (x a : α) (l : List α) : a ∈ insertBTree le x l ↔ a = x ∨ a ∈ l := by
  induction l with
  | nil => simp [insertBTree]
  | cons y ys ih =>
      simp only [insertBTree]
      split
      · next h1 =>
          subst h1
          simp only [List.mem_cons]
          tauto
      · split
        · simp only [List.mem_cons]
        · simp only [List.mem_cons, ih]
          tauto

theorem mem_btreeOfList_aux {α : Type} [DecidableEq α] (le : α → α → Bool)
    (l acc : List α) (a : α) :
    a ∈ l.foldl (fun acc x => insertBTree le x acc) acc ↔ a ∈ l ∨ a ∈ acc := by
  induction l generalizing acc with
  | nil => simp
  | cons x xs ih =>
      simp only [List.foldl_cons, ih, mem_insertBTree, List.mem_cons]
      tauto

theorem mem_btreeOfList {α : Type} [DecidableEq α] (le : α → α → Bool)
    (l : List α) (a : α) : a ∈ btreeOfList le l ↔ a ∈ l := by
  unfold btreeOfList
  rw [mem_btreeOfList_aux]
  simp

theorem collectSummaryIds_ok (graph : PackageGraph) (l : List PackageId)
    (h : ∀ pid ∈ l, (graph.metadata pid).isSome = true) :
    ∃ ids, collectSummaryIds graph l = .ok ids := by
  induction l with
  | nil => exact ⟨[], rfl⟩
  | cons pid rest ih =>
      obtain ⟨m, hm⟩ := Option.isSome_iff_exists.mp (h pid (by simp))
      obtain ⟨ids, hids⟩ := ih fun p hp => h p (List.mem_cons_of_mem _ hp)
      refine ⟨m.to_summary_id :: ids, ?_⟩
      simp [collectSummaryIds, hm, hids, PanicOr.bind]

theorem collectSummaryIds_mem (graph : PackageGraph) (l : List PackageId)
    (ids : List SummaryId) (h : collectSummaryIds graph l = .ok ids)
    (sid : SummaryId) :
    sid ∈ ids ↔
      ∃ pid ∈ l, ∃ m, graph.metadata pid = some m ∧ sid = m.to_summary_id := by
  induction l generalizing ids with
  | nil =>
      simp only [collectSummaryIds] at h
      cases h
      simp
  | cons pid rest ih =>
      cases hm : graph.metadata pid with
      | none => simp [collectSummaryIds, hm] at h
      | some m =>
          cases hr : collectSummaryIds graph rest with
          | panic s => simp [collectSummaryIds, hm, hr, PanicOr.bind] at h
          | error s => simp [collectSummaryIds, hm, hr, PanicOr.bind] at h
          | ok tl =>
              simp only [collectSummaryIds, hm, hr, PanicOr.bind] at h
              cases h
              simp only [List.mem_cons, ih tl hr]
              constructor
              · rintro (rfl | ⟨pid2, hp2, m2, hm2, rfl⟩)
                · exact ⟨pid, Or.inl rfl, m, hm, rfl⟩
                · exact ⟨pid2, Or.inr hp2, m2, hm2, rfl⟩
              · rintro ⟨pid2, hp2 | hp2, m2, hm2, rfl⟩
                · subst hp2
                  rw [hm] at hm2
                  cases hm2
                  exact Or.inl rfl
                · exact Or.inr ⟨pid2, hp2, m2, hm2, rfl⟩

theorem convertOmitted_ok_of (graph : PackageGraph) (l : List SummaryId)
    (h : ∀ sid ∈ l, ∃ wp, sid.source = SummarySource.workspace wp ∧
      (graph.member_by_path wp).isOk) :
    ∃ pids, convertOmitted graph l = .ok pids ∧
      ∀ q, q ∈ pids ↔ ∃ sid ∈ l, ∃ wp,
        sid.source = SummarySource.workspace wp ∧
        graph.member_by_path wp = .ok q := by
  induction l with
  | nil => exact ⟨[], rfl, by simp⟩
  | cons sid rest ih =>
      obtain ⟨wp, hwp, hok⟩ := h sid (by simp)
      obtain ⟨pid, hpid⟩ : ∃ pid, graph.member_by_path wp = .ok pid := by
        cases hm : graph.member_by_path wp with
        | error e => rw [hm] at hok; cases hok
        | ok pid => exact ⟨pid, rfl⟩
      obtain ⟨pids, hpids, hmem⟩ := ih fun s hs => h s (List.mem_cons_of_mem _ hs)
      refine ⟨pid :: pids, ?_, ?_⟩
      · cases sid with
        | mk n v src =>
            cases hwp
            simp [convertOmitted, hpid, hpids, PanicOr.bind]
      · intro q
        simp only [List.mem_cons, hmem]
        constructor
        · rintro (rfl | ⟨sid2, hs2, wp2, hw2, hq2⟩)
          · exact ⟨sid, Or.inl rfl, wp, hwp, hpid⟩
          · exact ⟨sid2, Or.inr hs2, wp2, hw2, hq2⟩
        · rintro ⟨sid2, hs2 | hs2, wp2, hw2, hq2⟩
          · subst hs2
            rw [hwp] at hw2
            cases hw2
            rw [hpid] at hq2
            cases hq2
            exact Or.inl rfl
          · exact Or.inr ⟨sid2, hs2, wp2, hw2, hq2⟩

theorem convertOmitted_not_ok (graph : PackageGraph) (l : List SummaryId)
    (h : ∃ sid ∈ l, sid.source.isWorkspace = false) :
    (convertOmitted graph l).isOk = false := by
  induction l with
  | nil => simp at h
  | cons sid rest ih =>
      obtain ⟨sid2, hs2, hbad⟩ := h
      rcases List.mem_cons.mp hs2 with rfl | hs2
      · cases hsrc : sid2.source with
        | workspace wp => rw [hsrc] at hbad; simp [SummarySource.isWorkspace] at hbad
        | path p =>
            cases sid2 with
            | mk n v src => cases hsrc; rfl
        | cratesIo =>
            cases sid2 with
            | mk n v src => cases hsrc; rfl
        | external u =>
            cases sid2 with
            | mk n v src => cases hsrc; rfl
      · have hrest := ih ⟨sid2, hs2, hbad⟩
        cases hsrc : sid.source with
        | workspace wp =>
            cases sid with
            | mk n v src =>
                cases hsrc
                cases hm : graph.member_by_path wp with
                | error e => simp [convertOmitted, hm, PanicOr.isOk]
                | ok pid =>
                    cases hr : convertOmitted graph rest with
                    | panic s =>
                        simp [convertOmitted, hm, hr, PanicOr.bind, PanicOr.isOk]
                    | error s =>
                        simp [convertOmitted, hm, hr, PanicOr.bind, PanicOr.isOk]
                    | ok tl => rw [hr] at hrest; cases hrest
        | path p =>
            cases sid with
            | mk n v src => cases hsrc; rfl
        | cratesIo =>
            cases sid with
            | mk n v src => cases hsrc; rfl
        | external u =>
            cases sid with
            | mk n v src => cases hsrc; rfl

theorem convertOmitted_panic (graph : PackageGraph) (l : List SummaryId)
    (hbad : ∃ sid ∈ l, sid.source.isWorkspace = false)
    (hres : ∀ sid ∈ l, ∀ wp, sid.source = SummarySource.workspace wp →
      (graph.member_by_path wp).isOk) :
    ∃ sid ∈ l, sid.source.isWorkspace = false ∧
      convertOmitted graph l =
        .panic ("conversion from non-workspace sources (" ++
          sid.source.variantName ++ ") is currently unsupported") := by
  induction l with
  | nil => simp at hbad
  | cons sid rest ih =>
      cases hsrc : sid.source with
      | workspace wp =>
          have hbadrest : ∃ sid2 ∈ rest, sid2.source.isWorkspace = false := by
            obtain ⟨sid2, hs2, hb2⟩ := hbad
            rcases List.mem_cons.mp hs2 with rfl | hs2
            · rw [hsrc] at hb2; simp [SummarySource.isWorkspace] at hb2
            · exact ⟨sid2, hs2, hb2⟩
          obtain ⟨pid, hpid⟩ : ∃ pid, graph.member_by_path wp = .ok pid := by
            have := hres sid (by simp) wp hsrc
            cases hm : graph.member_by_path wp with
            | error e => rw [hm] at this; cases this
            | ok pid => exact ⟨pid, rfl⟩
          obtain ⟨sid2, hs2, hb2, hconv⟩ :=
            ih hbadrest fun s hs => hres s (List.mem_cons_of_mem _ hs)
          refine ⟨sid2, List.mem_cons_of_mem _ hs2, hb2, ?_⟩
          cases sid with
          | mk n v src =>
              cases hsrc
              cases hr : convertOmitted graph rest with
              | panic s =>
                  rw [hr] at hconv
                  cases hconv
                  simp [convertOmitted, hpid, hr, PanicOr.bind]
              | error s => rw [hr] at hconv; cases hconv
              | ok tl => rw [hr] at hconv; cases hconv
      | path p =>
          refine ⟨sid, by simp, by rw [hsrc]; rfl, ?_⟩
          cases sid with
          | mk n v src => cases hsrc; rfl
      | cratesIo =>
          refine ⟨sid, by simp, by rw [hsrc]; rfl, ?_⟩
          cases sid with
          | mk n v src => cases hsrc; rfl
      | external u =>
          refine ⟨sid, by simp, by rw [hsrc]; rfl, ?_⟩
          cases sid with
          | mk n v src => cases hsrc; rfl

/-- Lifting: an omitted-packages conversion failure means
`to_cargo_options` cannot succeed. -/
theorem to_cargo_options_isOk_false (graph : PackageGraph)
    (codec : PlatformCodec) (s : CargoOptionsSummary)
    (h : (convertOmitted graph s.omitted_packages).isOk = false) :
    (s.to_cargo_options graph codec).isOk = false := by
  unfold CargoOptionsSummary.to_cargo_options
  cases hc : convertOmitted graph s.omitted_packages with
  | panic m => rfl
  | error m => rfl
  | ok pids => rw [hc] at h; cases h

/-- Lifting: an omitted-packages conversion panic is `to_cargo_options`'s
own panic. -/
theorem to_cargo_options_eq_panic (graph : PackageGraph)
    (codec : PlatformCodec) (s : CargoOptionsSummary) (m : String)
    (h : convertOmitted graph s.omitted_packages = .panic m) :
    s.to_cargo_options graph codec = .panic m := by
  unfold CargoOptionsSummary.to_cargo_options
  rw [h]
  rfl

/-- Characterization of a successful `transposeOpt` over `Option.map`. -/
theorem transposeOpt_map_ok {α β : Type} (f : α → Except String β)
    (o : Option α) (r : Option β)
    (h : transposeOpt (o.map f) = .ok r) :
    (o = none ∧ r = none) ∨
      ∃ p ps, o = some p ∧ f p = .ok ps ∧ r = some ps := by
  cases o with
  | none =>
      have h2 : (Except.ok (none : Option β) : Except String (Option β)) = .ok r := h
      cases h2
      exact Or.inl ⟨rfl, rfl⟩
  | some p =>
      cases hf : f p with
      | error e =>
          have h2 : (Except.error e : Except String (Option β)) = .ok r := by
            rw [← h]
            show _ = transposeOpt (some (f p))
            rw [hf]
            rfl
          cases h2
      | ok ps =>
          have h2 : (Except.ok (some ps) : Except String (Option β)) = .ok r := by
            rw [← h]
            show _ = transposeOpt (some (f p))
            rw [hf]
            rfl
          cases h2
          exact Or.inr ⟨p, ps, rfl, hf, rfl⟩

/-! ## Claim theorems -/

/-- C6: `to_summary_source` classifies every live package source: an
external source exactly equal to the well-known public-registry origin
string maps to the crates-io marker; any other external source maps to
`ExternalRegistry` preserving the exact origin string; workspace and
local-path sources map directly to the `Workspace` and `LocalPath`
variants. -/
theorem to_summary_source_classification :
    (PackageSource.external CRATES_IO_REGISTRY).to_summary_source =
      SummarySource.cratesIo ∧
    (∀ src : String, src ≠ CRATES_IO_REGISTRY →
      (PackageSource.external src).to_summary_source =
        SummarySource.external src) ∧
    (∀ wp : String, (PackageSource.workspace wp).to_summary_source =
      SummarySource.workspace wp) ∧
    (∀ lp : String, (PackageSource.path lp).to_summary_source =
      SummarySource.path lp) := by
  refine ⟨?_, ?_, ?_, ?_⟩
  · simp [PackageSource.to_summary_source]
  · intro src h
    simp [PackageSource.to_summary_source, h]
  · intro wp; rfl
  · intro lp; rfl

/-- Witness for `to_summary_source_classification` at a concrete non-public
external origin string. -/
theorem to_summary_source_classification_witness :
    "registry+https://example.com/index" ≠ CRATES_IO_REGISTRY ∧
    (PackageSource.external "registry+https://example.com/index").to_summary_source =
      SummarySource.external "registry+https://example.com/index" :=
  ⟨by decide,
    to_summary_source_classification.2.1 "registry+https://example.com/index" (by decide)⟩

/-- C3: every package in a resolution's selection is assigned exactly one
role by `to_package_map`, following first-match priority: `Initial` when
its graph index is in the initials set; else `WorkspaceMember` when it is
workspace-owned (even when it is also a direct dependency); else
`DirectDependency` when its index is in the direct-dependencies set; else
`Transitive`. -/
theorem to_package_map_role_priority (s initials : FeatureSet)
    (dd : PackageSet) (fl : FeatureList)
    (h : fl ∈ s.packages_with_features) :
    ∃ info : PackageInfo,
      (fl.package.to_summary_id, info) ∈ s.to_package_map initials dd ∧
      info.features = fl.features ∧
      (initials.contains_package_ix fl.package.package_ix = true →
        info.status = PackageStatus.initial) ∧
      (initials.contains_package_ix fl.package.package_ix = false →
        fl.package.in_workspace = true →
        info.status = PackageStatus.workspace) ∧
      (initials.contains_package_ix fl.package.package_ix = false →
        fl.package.in_workspace = false →
        dd.contains_ix fl.package.package_ix = true →
        info.status = PackageStatus.direct) ∧
      (initials.contains_package_ix fl.package.package_ix = false →
        fl.package.in_workspace = false →
        dd.contains_ix fl.package.package_ix = false →
        info.status = PackageStatus.transitive) := by
  refine ⟨⟨if initials.contains_package_ix fl.package.package_ix then .initial
      else if fl.package.in_workspace then .workspace
      else if dd.contains_ix fl.package.package_ix then .direct
      else .transitive, fl.features⟩, ?_, rfl, ?_, ?_, ?_, ?_⟩
  · exact List.mem_map_of_mem _ h
  · intro h1; simp [h1]
  · intro h1 h2; simp [h1, h2]
  · intro h1 h2 h3; simp [h1, h2, h3]
  · intro h1 h2 h3; simp [h1, h2, h3]

/-- Witness for `to_package_map_role_priority`: a workspace-owned package
whose index is also in the direct-dependencies set. -/
theorem to_package_map_role_priority_witness :
    egFeatureList ∈ egSelection.packages_with_features ∧
    ∃ info : PackageInfo,
      (egFeatureList.package.to_summary_id, info) ∈
        egSelection.to_package_map (FeatureSet.mk []) (PackageSet.mk [7]) ∧
      info.features = egFeatureList.features ∧
      ((FeatureSet.mk []).contains_package_ix egFeatureList.package.package_ix = true →
        info.status = PackageStatus.initial) ∧
      ((FeatureSet.mk []).contains_package_ix egFeatureList.package.package_ix = false →
        egFeatureList.package.in_workspace = true →
        info.status = PackageStatus.workspace) ∧
      ((FeatureSet.mk []).contains_package_ix egFeatureList.package.package_ix = false →
        egFeatureList.package.in_workspace = false →
        (PackageSet.mk [7]).contains_ix egFeatureList.package.package_ix = true →
        info.status = PackageStatus.direct) ∧
      ((FeatureSet.mk []).contains_package_ix egFeatureList.package.package_ix = false →
        egFeatureList.package.in_workspace = false →
        (PackageSet.mk [7]).contains_ix egFeatureList.package.package_ix = false →
        info.status = PackageStatus.transitive) :=
  ⟨by decide,
    to_package_map_role_priority egSelection (FeatureSet.mk [])
      (PackageSet.mk [7]) egFeatureList (by decide)⟩

/-- C4: under dry-run the `manage-deps` flow mutates nothing regardless of
the operation set's contents, and its exit status is non-zero exactly when
the operation set is non-empty: an empty set exits 0 with no operations
performed, a non-empty set exits 1 without applying. -/
theorem manage_deps_dry_run_no_mutation (ops : List WorkspaceOp) (yes : Bool)
    (interact : Except String Bool)
    (applyResult cargoTreeResult : Except String Unit) :
    (manageDepsExec (some ops) true yes interact applyResult cargoTreeResult).2 = [] ∧
    (ops = [] →
      (manageDepsExec (some ops) true yes interact applyResult cargoTreeResult).1 = .ok 0) ∧
    (ops ≠ [] →
      (manageDepsExec (some ops) true yes interact applyResult cargoTreeResult).1 = .ok 1) := by
  refine ⟨?_, ?_, ?_⟩
  · cases ops <;> simp [manageDepsExec, apply_on_dialog]
  · intro h; subst h; simp [manageDepsExec]
  · intro h
    cases ops with
    | nil => exact absurd rfl h
    | cons a l => simp [manageDepsExec, apply_on_dialog]

/-- Witness for `manage_deps_dry_run_no_mutation` on a concrete non-empty
operation set. -/
theorem manage_deps_dry_run_no_mutation_witness :
    ([WorkspaceOp.addDep "pkg-b" "hack"] ≠ ([] : List WorkspaceOp)) ∧
    (manageDepsExec (some [WorkspaceOp.addDep "pkg-b" "hack"]) true false
      (.ok true) (.ok ()) (.ok ())).2 = [] ∧
    (manageDepsExec (some [WorkspaceOp.addDep "pkg-b" "hack"]) true false
      (.ok true) (.ok ()) (.ok ())).1 = .ok 1 :=
  ⟨by decide,
    (manage_deps_dry_run_no_mutation [WorkspaceOp.addDep "pkg-b" "hack"] false
      (.ok true) (.ok ()) (.ok ())).1,
    (manage_deps_dry_run_no_mutation [WorkspaceOp.addDep "pkg-b" "hack"] false
      (.ok true) (.ok ()) (.ok ())).2.2 (by decide)⟩

/-- C8: when the user declines the interactive confirmation,
`apply_on_dialog` performs no mutation, does not invoke the `after`
callback, and returns exit status 1 (not an error) — the same outcome as
dry-run; when the user approves, the operations are applied, and `after`
runs only after a successful apply. -/
theorem apply_on_dialog_decline_approve (ops : List WorkspaceOp)
    (applyResult : Except String Unit)
    (after : Except String Unit × List Effect) :
    apply_on_dialog false false ops (.ok false) applyResult after = (.ok 1, []) ∧
    apply_on_dialog true false ops (.ok false) applyResult after = (.ok 1, []) ∧
    (∀ e, applyResult = .error e →
      apply_on_dialog false false ops (.ok true) applyResult after =
        (.error e, [Effect.applyOps])) ∧
    (applyResult = .ok () →
      apply_on_dialog false false ops (.ok true) applyResult after =
        (match after.1 with
          | .error e => (.error e, Effect.applyOps :: after.2)
          | .ok _ => (.ok 0, Effect.applyOps :: after.2))) := by
  refine ⟨rfl, rfl, ?_, ?_⟩
  · intro e he; subst he; rfl
  · intro he; subst he; rfl

/-- Witness for `apply_on_dialog_decline_approve`: approval with a
successful apply runs the callback after the apply and exits 0. -/
theorem apply_on_dialog_decline_approve_witness :
    ((.ok () : Except String Unit) = .ok ()) ∧
    apply_on_dialog false false [WorkspaceOp.addDep "pkg-b" "hack"] (.ok true)
      (.ok ()) (.ok (), [Effect.regenLock]) =
      (.ok 0, [Effect.applyOps, Effect.regenLock]) :=
  ⟨rfl,
    (apply_on_dialog_decline_approve [WorkspaceOp.addDep "pkg-b" "hack"]
      (.ok ()) (.ok (), [Effect.regenLock])).2.2.2 rfl⟩

/-- C1: for every combination of external publish outcome and pre-existing
edge state, the publish workflow ends with the dependency-edge state it
started with (given that the edge mutations and lockfile regeneration
themselves succeed); on success it exits 0, and when the publish fails with
the edge having been removed, the edge is re-added and the lockfile
regenerated before the publish failure is reported. -/
theorem publish_workflow_edge_invariant (edge_present : Bool)
    (publishRun : Except String Unit) :
    (publishExec edge_present (.ok ()) publishRun (.ok ()) (.ok ())).final_edge =
      edge_present ∧
    (publishRun = .ok () →
      (publishExec edge_present (.ok ()) publishRun (.ok ()) (.ok ())).result = .ok 0) ∧
    (∀ e, publishRun = .error e →
      (publishExec edge_present (.ok ()) publishRun (.ok ()) (.ok ())).result =
        .error ("cargo publish failed: " ++ e) ∧
      (edge_present = true →
        (publishExec edge_present (.ok ()) publishRun (.ok ()) (.ok ())).trace =
          [Effect.applyOps, Effect.publish, Effect.applyOps, Effect.regenLock])) := by
  refine ⟨?_, ?_, ?_⟩
  · cases edge_present <;> cases publishRun <;>
      simp [publishExec, publishFinish, removeOpsFor, regenerate_lockfile]
  · intro h; subst h
    cases edge_present <;>
      simp [publishExec, publishFinish, removeOpsFor, regenerate_lockfile]
  · intro e he; subst he
    cases edge_present <;>
      simp [publishExec, publishFinish, removeOpsFor, regenerate_lockfile]

/-- Witness for `publish_workflow_edge_invariant`: pre-existing edge, failed
publish — the edge is restored, the lockfile regenerated, and the failure
reported. -/
theorem publish_workflow_edge_invariant_witness :
    ((.error "the remote server responded with an error" : Except String Unit) =
      .error "the remote server responded with an error") ∧
    (publishExec true (.ok ()) (.error "the remote server responded with an error")
      (.ok ()) (.ok ())).final_edge = true ∧
    (publishExec true (.ok ()) (.error "the remote server responded with an error")
      (.ok ()) (.ok ())).result =
      .error ("cargo publish failed: " ++ "the remote server responded with an error") ∧
    (publishExec true (.ok ()) (.error "the remote server responded with an error")
      (.ok ()) (.ok ())).trace =
      [Effect.applyOps, Effect.publish, Effect.applyOps, Effect.regenLock] :=
  ⟨rfl,
    (publish_workflow_edge_invariant true
      (.error "the remote server responded with an error")).1,
    ((publish_workflow_edge_invariant true
      (.error "the remote server responded with an error")).2.2
        "the remote server responded with an error" rfl).1,
    ((publish_workflow_edge_invariant true
      (.error "the remote server responded with an error")).2.2
        "the remote server responded with an error" rfl).2 rfl⟩

/-- C7: in non-diff mode the content reconciler writes nothing and triggers
no lock regeneration when the generated contents equal the existing
contents; when they differ it writes them and then mandatorily regenerates
the lockfile, and a lock-regeneration failure propagates as the
reconciler's own failure. -/
theorem write_to_cargo_toml_reconcile (diffHunks : String → String → Nat)
    (existing : HakariCargoToml) (new_contents : String)
    (writeResult cargoTreeResult : Except String Unit) :
    (existing.contents = new_contents →
      write_to_cargo_toml diffHunks existing new_contents false writeResult
        cargoTreeResult = (.ok 0, [])) ∧
    (existing.contents ≠ new_contents → writeResult = .ok () →
      (write_to_cargo_toml diffHunks existing new_contents false writeResult
        cargoTreeResult).2 = [Effect.writeFile, Effect.regenLock] ∧
      (cargoTreeResult = .ok () →
        (write_to_cargo_toml diffHunks existing new_contents false writeResult
          cargoTreeResult).1 = .ok 0) ∧
      (∀ e, cargoTreeResult = .error e →
        (write_to_cargo_toml diffHunks existing new_contents false writeResult
          cargoTreeResult).1 = .error ("updating Cargo.lock failed: " ++ e))) := by
  constructor
  · intro h
    simp [write_to_cargo_toml, HakariCargoToml.is_changed, h]
  · intro h hw; subst hw
    refine ⟨?_, ?_, ?_⟩
    · cases cargoTreeResult <;>
        simp [write_to_cargo_toml, HakariCargoToml.is_changed, h,
          regenerate_lockfile]
    · intro hc; subst hc
      simp [write_to_cargo_toml, HakariCargoToml.is_changed, h,
        regenerate_lockfile]
    · intro e hc; subst hc
      simp [write_to_cargo_toml, HakariCargoToml.is_changed, h,
        regenerate_lockfile]

/-- Witness for `write_to_cargo_toml_reconcile`: changed contents with a
failing lockfile regeneration — the write happens and the regeneration
failure propagates. -/
theorem write_to_cargo_toml_reconcile_witness :
    (("old contents" : String) ≠ "new contents") ∧
    (write_to_cargo_toml (fun _ _ => 1) ⟨"old contents"⟩ "new contents" false
      (.ok ()) (.error "cargo tree exited with status 101")).2 =
      [Effect.writeFile, Effect.regenLock] ∧
    (write_to_cargo_toml (fun _ _ => 1) ⟨"old contents"⟩ "new contents" false
      (.ok ()) (.error "cargo tree exited with status 101")).1 =
      .error ("updating Cargo.lock failed: " ++ "cargo tree exited with status 101") :=
  ⟨by decide,
    ((write_to_cargo_toml_reconcile (fun _ _ => 1) ⟨"old contents"⟩ "new contents"
      (.ok ()) (.error "cargo tree exited with status 101")).2 (by decide) rfl).1,
    ((write_to_cargo_toml_reconcile (fun _ _ => 1) ⟨"old contents"⟩ "new contents"
      (.ok ()) (.error "cargo tree exited with status 101")).2 (by decide) rfl).2.2
      "cargo tree exited with status 101" rfl⟩

/-- C10: in non-diff (write) mode the content reconciler returns exit
status 0 whenever it returns an exit status at all; exit status 1 occurs
only in diff mode, exactly when the computed patch has at least one
hunk. -/
theorem write_to_cargo_toml_exit_status (diffHunks : String → String → Nat)
    (existing : HakariCargoToml) (new_contents : String) (diff : Bool)
    (writeResult cargoTreeResult : Except String Unit) :
    (diff = false → ∀ n : Int,
      (write_to_cargo_toml diffHunks existing new_contents diff writeResult
        cargoTreeResult).1 = .ok n → n = 0) ∧
    ((write_to_cargo_toml diffHunks existing new_contents diff writeResult
        cargoTreeResult).1 = .ok 1 →
      diff = true ∧ diffHunks existing.contents new_contents ≠ 0) := by
  constructor
  · intro hd n
    subst hd
    by_cases h : existing.contents = new_contents
    · simp [write_to_cargo_toml, HakariCargoToml.is_changed, h]
      omega
    · cases writeResult with
      | error e => simp [write_to_cargo_toml, HakariCargoToml.is_changed, h]
      | ok _ =>
          cases cargoTreeResult <;>
            simp [write_to_cargo_toml, HakariCargoToml.is_changed, h,
              regenerate_lockfile] <;> omega
  · intro h1
    cases diff with
    | false =>
        by_cases h : existing.contents = new_contents
        · simp [write_to_cargo_toml, HakariCargoToml.is_changed, h] at h1
        · cases writeResult with
          | error e =>
              simp [write_to_cargo_toml, HakariCargoToml.is_changed, h] at h1
          | ok _ =>
              cases cargoTreeResult <;>
                simp [write_to_cargo_toml, HakariCargoToml.is_changed, h,
                  regenerate_lockfile] at h1
    | true =>
        by_cases h : diffHunks existing.contents new_contents = 0
        · simp [write_to_cargo_toml, h] at h1
        · exact ⟨rfl, h⟩

/-- Witness for `write_to_cargo_toml_exit_status`: concretely, write mode
with unchanged contents exits 0, and a diff-mode run whose patch has one
hunk exits 1 — applying the theorem to that evaluated exit status yields
that it is in diff mode with a non-empty patch. -/
theorem write_to_cargo_toml_exit_status_witness :
    (write_to_cargo_toml (fun _ _ => 0) ⟨"same"⟩ "same" false (.ok ())
      (.ok ())).1 = .ok 0 ∧
    (write_to_cargo_toml (fun _ _ => 1) ⟨"old contents"⟩ "new contents" true
      (.ok ()) (.ok ())).1 = .ok 1 ∧
    ((true : Bool) = true ∧ (1 : Nat) ≠ 0) :=
  ⟨rfl, rfl,
    (write_to_cargo_toml_exit_status (fun _ _ => 1) ⟨"old contents"⟩
      "new contents" true (.ok ()) (.ok ())).2 rfl⟩

/-- C9: when every package id in the live options' omitted-packages list
resolves in the given package graph, `CargoOptionsSummary::new` never
reaches the `expect("valid package ID")` panic branch while resolving
omitted package ids: the result is never a panic (it is a summary, or a
tagged platform-serialization error, with no partial summary). -/
theorem new_no_lookup_panic (graph : PackageGraph) (codec : PlatformCodec)
    (features_only : FeatureSet) (opts : CargoOptions)
    (h : ∀ pid ∈ opts.omitted_packages, (graph.metadata pid).isSome = true) :
    (CargoOptionsSummary.new graph codec features_only opts).isPanic = false := by
  obtain ⟨ids, hids⟩ := collectSummaryIds_ok graph opts.omitted_packages h
  unfold CargoOptionsSummary.new
  rw [hids]
  simp only [PanicOr.bind]
  cases transposeOpt (opts.host_platform.map codec.ser) with
  | error e => rfl
  | ok hp =>
      cases transposeOpt (opts.target_platform.map codec.ser) with
      | error e => rfl
      | ok tp => rfl

/-- Witness for `new_no_lookup_panic` on the concrete one-package graph. -/
theorem new_no_lookup_panic_witness :
    (∀ pid ∈ egOpts.omitted_packages, (egGraph.metadata pid).isSome = true) ∧
    (CargoOptionsSummary.new egGraph idCodec (FeatureSet.mk []) egOpts).isPanic =
      false :=
  ⟨by decide,
    new_no_lookup_panic egGraph idCodec (FeatureSet.mk []) egOpts (by decide)⟩

/-- C5 counterexample: converting `c5Summary` (whose only omitted package
is crates-io-sourced) back to live options does not report a failure
result to the caller — it panics via `unimplemented!` instead of returning
an error. -/
theorem to_cargo_options_nonworkspace_not_error_result :
    (c5Summary.to_cargo_options egGraph idCodec).isError = false ∧
    c5Summary.to_cargo_options egGraph idCodec =
      .panic "conversion from non-workspace sources (CratesIo) is currently unsupported" := by
  exact ⟨rfl, rfl⟩

/-- C5 (amended): converting a summary back to live options never succeeds
when some omitted package's source is not the `Workspace` variant — no
default or guessed mapping is produced; whenever the workspace-sourced
entries all resolve, the conversion panics via `unimplemented!` with a
message naming the offending variant, rather than returning an error
result. -/
theorem to_cargo_options_nonworkspace_panics (graph : PackageGraph)
    (codec : PlatformCodec) (s : CargoOptionsSummary)
    (hbad : ∃ sid ∈ s.omitted_packages, sid.source.isWorkspace = false) :
    (s.to_cargo_options graph codec).isOk = false ∧
    ((∀ sid ∈ s.omitted_packages, ∀ wp,
        sid.source = SummarySource.workspace wp →
        (graph.member_by_path wp).isOk) →
      ∃ sid ∈ s.omitted_packages, sid.source.isWorkspace = false ∧
        s.to_cargo_options graph codec =
          .panic ("conversion from non-workspace sources (" ++
            sid.source.variantName ++ ") is currently unsupported")) := by
  constructor
  · exact to_cargo_options_isOk_false graph codec s
      (convertOmitted_not_ok graph s.omitted_packages hbad)
  · intro hres
    obtain ⟨sid, hs, hb, hconv⟩ :=
      convertOmitted_panic graph s.omitted_packages hbad hres
    exact ⟨sid, hs, hb, to_cargo_options_eq_panic graph codec s _ hconv⟩

/-- Witness for `to_cargo_options_nonworkspace_panics` on the mixed
summary: one resolvable workspace entry, one crates-io entry. -/
theorem to_cargo_options_nonworkspace_panics_witness :
    (∃ sid ∈ c5MixedSummary.omitted_packages, sid.source.isWorkspace = false) ∧
    (c5MixedSummary.to_cargo_options egGraph idCodec).isOk = false ∧
    ∃ sid ∈ c5MixedSummary.omitted_packages, sid.source.isWorkspace = false ∧
      c5MixedSummary.to_cargo_options egGraph idCodec =
        .panic ("conversion from non-workspace sources (" ++
          sid.source.variantName ++ ") is currently unsupported") :=
  ⟨by decide,
    (to_cargo_options_nonworkspace_panics egGraph idCodec c5MixedSummary
      (by decide)).1,
    (to_cargo_options_nonworkspace_panics egGraph idCodec c5MixedSummary
      (by decide)).2 (by
        intro sid hs wp hw
        simp only [c5MixedSummary, List.mem_cons, List.not_mem_nil,
          or_false] at hs
        rcases hs with rfl | rfl
        · cases hw
          decide
        · cases hw)⟩

/-- If serializing a platform succeeded, parsing the result back with a
codec that inverts its own serialization recovers the original platform
(also for the absent-platform case). -/
theorem codec_roundtrip_ok (codec : PlatformCodec)
    (hcodec : ∀ p ps, codec.ser p = .ok ps → codec.de ps = .ok p)
    (o : Option Platform) (r : Option PlatformSummary)
    (h : transposeOpt (o.map codec.ser) = .ok r) :
    transposeOpt (r.map codec.de) = .ok o := by
  rcases transposeOpt_map_ok codec.ser o r h with ⟨rfl, rfl⟩ | ⟨p, ps, rfl, hser, rfl⟩
  · rfl
  · show transposeOpt (some (codec.de ps)) = _
    rw [hcodec p ps hser]
    rfl

/-- C2: when building a summary from live options succeeds, converting it
back reproduces the resolver version, the dev-dependency flag, the
proc-macro flag, and the host and target platform specs exactly (for a
platform codec that inverts its own serialization over a graph whose
path lookups invert metadata); the omitted-packages set round-trips when
every omitted package is workspace-sourced, and fails to round-trip (no
options value is produced) when some omitted package is not
workspace-sourced; the features-only set is ignored by the inverse. -/
theorem cargo_options_summary_roundtrip (graph : PackageGraph)
    (codec : PlatformCodec) (features_only : FeatureSet)
    (opts : CargoOptions) (s : CargoOptionsSummary)
    (hnew : CargoOptionsSummary.new graph codec features_only opts = .ok s)
    (hcodec : ∀ p ps, codec.ser p = .ok ps → codec.de ps = .ok p)
    (hgraph : ∀ pid m wp, graph.metadata pid = some m →
      m.source = PackageSource.workspace wp →
      graph.member_by_path wp = .ok pid) :
    ((∀ pid ∈ opts.omitted_packages, ∃ m wp, graph.metadata pid = some m ∧
        m.source = PackageSource.workspace wp) →
      ∃ opts2, s.to_cargo_options graph codec = .ok opts2 ∧
        opts2.version = opts.version ∧
        opts2.include_dev = opts.include_dev ∧
        opts2.proc_macros_on_target = opts.proc_macros_on_target ∧
        opts2.host_platform = opts.host_platform ∧
        opts2.target_platform = opts.target_platform ∧
        (∀ q, q ∈ opts2.omitted_packages ↔ q ∈ opts.omitted_packages)) ∧
    ((∃ pid ∈ opts.omitted_packages, ∃ m, graph.metadata pid = some m ∧
        m.source.to_summary_source.isWorkspace = false) →
      (s.to_cargo_options graph codec).isOk = false) ∧
    (∀ fo2 : List FeaturesOnlySummary,
      CargoOptionsSummary.to_cargo_options
        ⟨s.version, s.include_dev, s.proc_macros_on_target, s.host_platform,
          s.target_platform, s.omitted_packages, fo2⟩ graph codec =
        s.to_cargo_options graph codec) := by
  unfold CargoOptionsSummary.new at hnew
  cases hc : collectSummaryIds graph opts.omitted_packages with
  | panic m => rw [hc] at hnew; cases hnew
  | error m => rw [hc] at hnew; cases hnew
  | ok ids =>
  rw [hc] at hnew
  simp only [PanicOr.bind] at hnew
  cases hhost : transposeOpt (opts.host_platform.map codec.ser) with
  | error e => rw [hhost] at hnew; cases hnew
  | ok hp =>
  cases htar : transposeOpt (opts.target_platform.map codec.ser) with
  | error e => rw [hhost, htar] at hnew; cases hnew
  | ok tp =>
  rw [hhost, htar] at hnew
  have h : (⟨opts.version, opts.include_dev, opts.proc_macros_on_target, hp,
      tp, btreeOfList SummaryId.leB ids,
      insertionSort FeaturesOnlySummary.leB features_only.to_features_only_vec⟩ :
      CargoOptionsSummary) = s := by
    injection hnew
  have hver : s.version = opts.version := by rw [← h]
  have hdev : s.include_dev = opts.include_dev := by rw [← h]
  have hpm : s.proc_macros_on_target = opts.proc_macros_on_target := by rw [← h]
  have hhp : s.host_platform = hp := by rw [← h]
  have htp : s.target_platform = tp := by rw [← h]
  have hom : s.omitted_packages = btreeOfList SummaryId.leB ids := by rw [← h]
  rw [← hhp] at hhost
  rw [← htp] at htar
  refine ⟨?_, ?_, ?_⟩
  · -- all omitted packages workspace-sourced: the inverse succeeds
    intro hall
    have hstruct : ∀ sid ∈ btreeOfList SummaryId.leB ids,
        ∃ pid ∈ opts.omitted_packages, ∃ m, graph.metadata pid = some m ∧
          sid = m.to_summary_id := by
      intro sid hs
      exact (collectSummaryIds_mem graph _ ids hc sid).mp
        ((mem_btreeOfList _ _ _).mp hs)
    have hws : ∀ sid ∈ btreeOfList SummaryId.leB ids,
        ∃ wp, sid.source = SummarySource.workspace wp ∧
          (graph.member_by_path wp).isOk := by
      intro sid hs
      obtain ⟨pid, hpmem, m, hm, rfl⟩ := hstruct sid hs
      obtain ⟨m2, wp, hm2, hsrc⟩ := hall pid hpmem
      rw [hm] at hm2
      cases hm2
      refine ⟨wp, ?_, ?_⟩
      · show m.source.to_summary_source = _
        rw [hsrc]
        rfl
      · rw [hgraph pid m wp hm hsrc]
        rfl
    obtain ⟨pids, hconv, hmem⟩ := convertOmitted_ok_of graph _ hws
    have hde1 := codec_roundtrip_ok codec hcodec opts.host_platform
      s.host_platform hhost
    have hde2 := codec_roundtrip_ok codec hcodec opts.target_platform
      s.target_platform htar
    refine ⟨⟨s.version, s.include_dev, s.proc_macros_on_target,
        opts.host_platform, opts.target_platform, pids⟩, ?_, hver, hdev, hpm,
        rfl, rfl, ?_⟩
    · unfold CargoOptionsSummary.to_cargo_options
      rw [hom, hconv]
      simp only [PanicOr.bind]
      rw [hde1, hde2]
    · intro q
      show q ∈ pids ↔ _
      rw [hmem q]
      constructor
      · rintro ⟨sid, hsid, wp, hw, hq⟩
        obtain ⟨pid, hpmem, m, hm, rfl⟩ := hstruct sid hsid
        obtain ⟨m2, wp2, hm2, hsrc⟩ := hall pid hpmem
        rw [hm] at hm2
        cases hm2
        have hw2 : m.source.to_summary_source = SummarySource.workspace wp := hw
        rw [hsrc] at hw2
        have hwp : wp = wp2 := by
          cases hw2
          rfl
        subst hwp
        have := hgraph pid m wp hm hsrc
        rw [this] at hq
        cases hq
        exact hpmem
      · intro hq
        obtain ⟨m, wp, hm, hsrc⟩ := hall q hq
        refine ⟨m.to_summary_id, ?_, wp, ?_, hgraph q m wp hm hsrc⟩
        · exact (mem_btreeOfList _ _ _).mpr
            ((collectSummaryIds_mem graph _ ids hc _).mpr ⟨q, hq, m, hm, rfl⟩)
        · show m.source.to_summary_source = _
          rw [hsrc]
          rfl
  · -- some omitted package not workspace-sourced: the inverse cannot succeed
    rintro ⟨pid, hpmem, m, hm, hbadsrc⟩
    refine to_cargo_options_isOk_false graph codec s
      (convertOmitted_not_ok graph s.omitted_packages ⟨m.to_summary_id, ?_, hbadsrc⟩)
    rw [hom]
    exact (mem_btreeOfList _ _ _).mpr
      ((collectSummaryIds_mem graph _ ids hc _).mpr ⟨pid, hpmem, m, hm, rfl⟩)
  · -- the features-only set is ignored by the inverse
    intro fo2
    rfl

/-- Witness for `cargo_options_summary_roundtrip` on the concrete
one-package graph: the summary built from `egOpts` converts back to
options agreeing with `egOpts` on every round-tripped field. -/
theorem cargo_options_summary_roundtrip_witness :
    CargoOptionsSummary.new egGraph idCodec (FeatureSet.mk []) egOpts =
      .ok egSummary ∧
    ∃ opts2, egSummary.to_cargo_options egGraph idCodec = .ok opts2 ∧
      opts2.version = egOpts.version ∧
      opts2.include_dev = egOpts.include_dev ∧
      opts2.proc_macros_on_target = egOpts.proc_macros_on_target ∧
      opts2.host_platform = egOpts.host_platform ∧
      opts2.target_platform = egOpts.target_platform ∧
      (∀ q, q ∈ opts2.omitted_packages ↔ q ∈ egOpts.omitted_packages) :=
  ⟨by decide,
    (cargo_options_summary_roundtrip egGraph idCodec (FeatureSet.mk []) egOpts
      egSummary (by decide)
      (by
        intro p ps hser
        cases p with
        | mk pspec =>
            cases hser
            rfl)
      (by
        intro pid m wp h1 h2
        by_cases hp : pid = egPkgId
        · subst hp
          have h1b : some egMeta = some m := by
            rw [← h1]
            show some egMeta = egGraph.metadata egPkgId
            simp [egGraph]
          cases h1b
          have h2b : PackageSource.workspace "crates/pkg-a" =
              PackageSource.workspace wp := h2
          cases h2b
          simp [egGraph]
        · exfalso
          have hnone : egGraph.metadata pid = none := by
            simp [egGraph, hp]
          rw [hnone] at h1
          cases h1)).1
      (by
        intro pid hpmem
        simp only [egOpts, List.mem_cons, List.not_mem_nil, or_false] at hpmem
        subst hpmem
        exact ⟨egMeta, "crates/pkg-a", by decide, rfl⟩)⟩

end Guppy
